import Mathlib

/-!
Shallow embedding of `src/ngx_http_fancyindex_module.c` (the fancy directory
index handler of the ngx-fancyindex nginx module).

Modelling conventions:

* Byte sequences are `List Nat` (each element one byte value).
* A file name is modelled as a `List (List Nat)`: the list of its display
  units (codepoints), each unit being the non-empty byte sequence of one
  (well-formed) UTF-8 character; `flatten` recovers the raw byte string.
  This models the nginx core helpers `ngx_utf_length` (number of units) and
  `ngx_utf_cpystrn` (copy a number of leading units) on well-formed names.
* Fallible C calls (`ngx_open_dir`, `ngx_de_info`, `ngx_de_link_info`,
  `ngx_file_info`) are oracles recorded in the inputs as `Except`/`Bool`
  values: the value each call would return for the path the handler probes.
* `ngx_sprintf` field writes (`%19O`, `%6i`, `%02d`, `%d`) are modelled by
  decimal rendering with space/zero padding; widths are minimum widths.
* HTTP header emission, logging and the memory pool are external
  collaborators and have no observable effect on the produced bytes; they
  are elided.
-/

/-- Byte string of an ASCII string literal (all markup literals in the
source are ASCII, so codepoint = byte). -/
def sz (s : String) : List Nat := s.data.map Char.toNat

/-- Length in bytes of an ASCII literal; models the `nfi_sizeof_ssz` macro
(`sizeof(literal) - 1`) from the module header. -/
def nfi_sizeof_ssz (s : String) : Nat := (sz s).length

/-- Errno values distinguished by the handler; `other` covers every further
error class. -/
inductive Errno where
  | ENOENT | ENOTDIR | ENAMETOOLONG | EACCES | ENOMOREFILES
  | other (code : Nat)
deriving DecidableEq, Repr

/-- Failure classification surfaced by the handler: `notFound` is
`NGX_HTTP_NOT_FOUND`, `accessDenied` is `NGX_HTTP_FORBIDDEN`, `serverFault`
is `NGX_HTTP_INTERNAL_SERVER_ERROR`. -/
inductive Fault where
  | notFound | accessDenied | serverFault
deriving DecidableEq, Repr

/-- Result of the content handler: `declined` is `NGX_DECLINED`, `fault`
an HTTP error status, `output` the single response buffer. -/
inductive HandlerResult where
  | declined
  | fault (f : Fault)
  | output (body : List Nat)
deriving DecidableEq, Repr

/-- `NGX_HTTP_GET` method bit. -/
def NGX_HTTP_GET : Nat := 2

/-- `NGX_HTTP_HEAD` method bit. -/
def NGX_HTTP_HEAD : Nat := 4

/-- `NGX_HTTP_FANCYINDEX_README_TOP` (note: defined as `0x00` in the
source, line 50). -/
def README_TOP : Nat := 0x00

/-- `NGX_HTTP_FANCYINDEX_README_PRE` (`0x00`). -/
def README_PRE : Nat := 0x00

/-- `NGX_HTTP_FANCYINDEX_README_ASIS` (`0x01`). -/
def README_ASIS : Nat := 0x01

/-- `NGX_HTTP_FANCYINDEX_README_BOTTOM` (`0x02`). -/
def README_BOTTOM : Nat := 0x02

/-- `NGX_HTTP_FANCYINDEX_README_DIV` (`0x04`). -/
def README_DIV : Nat := 0x04

/-- `NGX_HTTP_FANCYINDEX_README_IFRAME` (`0x08`). -/
def README_IFRAME : Nat := 0x08

/-- `NGX_HTTP_FANCYINDEX_NAME_LEN` (50). -/
def NAME_LEN : Nat := 50

/-- Modelled from the spec: the `nfi_has_flag` bitmask-membership macro
lives in the module header, which is not under `src/`; per §3 of the spec
`readmeFlags` is a bitset, so membership of flag `f` in word `w` is
`w &&& f = f`. -/
def nfi_has_flag (w f : Nat) : Bool := w &&& f == f

/-- Per-entry metadata as obtained from a metadata probe
(`ngx_de_is_dir` / `ngx_de_mtime` / `ngx_de_size`). -/
structure FileInfo where
  isDir : Bool
  mtime : Nat
  size : Nat
deriving DecidableEq, Repr

instance {ε α : Type} [DecidableEq ε] [DecidableEq α] : DecidableEq (Except ε α) := fun x y =>
  match x, y with
  | .ok a, .ok b =>
    if h : a = b then isTrue (congrArg Except.ok h)
    else isFalse (fun hh => h (Except.ok.inj hh))
  | .ok _, .error _ => isFalse (fun hh => Except.noConfusion hh)
  | .error _, .ok _ => isFalse (fun hh => Except.noConfusion hh)
  | .error e, .error f =>
    if h : e = f then isTrue (congrArg Except.error h)
    else isFalse (fun hh => h (Except.error.inj hh))

/-- One raw child produced by `ngx_read_dir`, together with the oracle
results of the metadata probes the handler would make for it:
`validInfo` is `some` when the directory read itself supplied complete
metadata (`dir.valid_info`), `deInfo` is what `ngx_de_info` (stat,
following links) returns for the joined path, `deLinkInfo` what
`ngx_de_link_info` (lstat) returns. -/
structure Dirent where
  name : List (List Nat)
  validInfo : Option FileInfo
  deInfo : Except Errno FileInfo
  deLinkInfo : Except Errno FileInfo
deriving DecidableEq, Repr

/-- `ngx_http_fancyindex_entry_t` (source lines 40–47). -/
structure Entry where
  name : List (List Nat)
  utf_len : Nat
  escape : Nat
  dir : Bool
  mtime : Nat
  size : Nat
deriving DecidableEq, Repr

/-- Raw byte string of an entry name. -/
def Entry.nameBytes (e : Entry) : List Nat := e.name.flatten

/-- Byte is escaped by `ngx_escape_uri(…, NGX_ESCAPE_HTML)`: models the
nginx core `html` escape bitmap (controls and space, `"`, `#`, `%`, `'`,
DEL and all bytes ≥ 0x80). -/
def needsEscapeHtml (b : Nat) : Bool :=
  b ≤ 32 || b == 34 || b == 35 || b == 37 || b == 39 || b ≥ 127

/-- Number of name bytes that `ngx_escape_uri(NULL, …, NGX_ESCAPE_HTML)`
would escape. -/
def countEscapeHtml (bs : List Nat) : Nat :=
  (bs.filter needsEscapeHtml).length

/-- Upper-case hex digit characters. -/
def hexDigit (n : Nat) : Nat := if n < 10 then 48 + n else 55 + n

/-- Percent-escaped form of a byte string as written by `ngx_escape_uri`
with the HTML map: each escaped byte becomes `%XX`. -/
def escapeHtmlUri (bs : List Nat) : List Nat :=
  bs.flatMap (fun b =>
    if needsEscapeHtml b then [37, hexDigit (b / 16), hexDigit (b % 16)] else [b])

/-- Resolve one child's metadata, following the probe cascade of source
lines 351–386: use the directory read's own info when valid; otherwise
`ngx_de_info`; on `NGX_ENOENT` fall back to `ngx_de_link_info`; any other
`ngx_de_info` failure, or any `ngx_de_link_info` failure, aborts the whole
operation with an internal server error (`ngx_http_fancyindex_error`). -/
def probeInfo (d : Dirent) : Except Fault FileInfo :=
  match d.validInfo with
  | some i => .ok i
  | none =>
    match d.deInfo with
    | .ok i => .ok i
    | .error e =>
      if e ≠ .ENOENT then .error .serverFault
      else
        match d.deLinkInfo with
        | .ok i => .ok i
        | .error _ => .error .serverFault

/-- Entry collection loop (source lines 327–414): skip children whose name
starts with `'.'`, resolve metadata for the rest, and build the entry
array; any probe failure aborts the whole operation. -/
def collectEntries (utf8 : Bool) : List Dirent → Except Fault (List Entry)
  | [] => .ok []
  | d :: ds =>
    if d.name.flatten.head? = some 46 then
      collectEntries utf8 ds
    else
      match probeInfo d with
      | .error f => .error f
      | .ok info =>
        (collectEntries utf8 ds).map (fun rest =>
          { name := d.name
            utf_len := if utf8 then d.name.length else d.name.flatten.length
            escape := 2 * countEscapeHtml d.name.flatten
            dir := info.isDir
            mtime := info.mtime
            size := info.size } :: rest)

/-- `ngx_strcmp` (C `strcmp`) on byte strings, with the `'\0'` terminator
behaviour made explicit: list end acts as a `0` byte and comparison stops
at the first `0`. -/
def strcmpB : List Nat → List Nat → Int
  | [], [] => 0
  | [], b :: _ => -(b : Int)
  | a :: _, [] => (a : Int)
  | a :: as, b :: bs =>
    if a = b then (if a = 0 then 0 else strcmpB as bs) else (a : Int) - (b : Int)

/-- `ngx_http_fancyindex_cmp_entries` (source lines 689–706): directories
first, then `ngx_strcmp` on the raw names. -/
def cmpEntries (a b : Entry) : Int :=
  if a.dir && !b.dir then -1
  else if !a.dir && b.dir then 1
  else strcmpB a.nameBytes b.nameBytes

/-- Sort order used by `ngx_qsort`: comparator result non-positive. -/
def entryLE (a b : Entry) : Prop := cmpEntries a b ≤ 0

instance : DecidableRel entryLE := fun a b =>
  inferInstanceAs (Decidable (cmpEntries a b ≤ 0))

/-- The `ngx_qsort` call (source lines 479–483) realised with a sort that
is total and transitive for the comparator's order. -/
def sortEntries (l : List Entry) : List Entry := List.insertionSort entryLE l

/-- The handler sorts only when there is more than one entry
(source line 479); this is the entry order rows are rendered in. -/
def renderOrder (l : List Entry) : List Entry :=
  if l.length > 1 then sortEntries l else l

/-- Decimal digit characters of a natural number (used for all the
`ngx_sprintf` integer conversions). -/
def digitsB (n : Nat) : List Nat := (Nat.toDigits 10 n).map Char.toNat

/-- Right-justify a field in a minimum width with spaces, as `ngx_sprintf`
width specifiers do (never truncates). -/
def rightAlign (w : Nat) (s : List Nat) : List Nat :=
  List.replicate (w - s.length) 32 ++ s

/-- Zero-padded two-digit field (`%02d`). -/
def pad2 (n : Nat) : List Nat :=
  if n < 10 then 48 :: digitsB n else digitsB n

/-- File-size cell of one row (source lines 581–629): with exact sizes a
directory is a dash and a file is `%19O`; otherwise a directory is a dash
and a file is scaled into `G`/`M`/`K` with the increment-on-large-remainder
rounding, or printed raw as `" %6i"` when no threshold is passed. -/
def fancySize (exact : Bool) (isDir : Bool) (length : Nat) : List Nat :=
  if exact then
    if isDir then [45] else rightAlign 19 (digitsB length)
  else
    if isDir then [45]
    else
      if length > 1024 * 1024 * 1024 - 1 then
        rightAlign 6 (digitsB (length / (1024 * 1024 * 1024) +
          (if length % (1024 * 1024 * 1024) > 1024 * 1024 * 1024 / 2 - 1 then 1 else 0))) ++ [71]
      else if length > 1024 * 1024 - 1 then
        rightAlign 6 (digitsB (length / (1024 * 1024) +
          (if length % (1024 * 1024) > 1024 * 1024 / 2 - 1 then 1 else 0))) ++ [77]
      else if length > 9999 then
        rightAlign 6 (digitsB (length / 1024 +
          (if length % 1024 > 511 then 1 else 0))) ++ [75]
      else
        32 :: rightAlign 6 (digitsB length)

/-- Visible-name cell of one row including its closing markup (source
lines 551–579): `len` holds the entry's display width (`utf_len`); when
the name has multibyte characters (`name.len != len`) the copy is done by
units via `ngx_utf_cpystrn`, otherwise by bytes via `ngx_cpystrn` with the
`last` pointer backed up 3 bytes; widths over `NAME_LEN` are closed with
the `..&gt;` marker, otherwise a directory with a spare column gets a
trailing slash. -/
def visibleNameSection (name : List (List Nat)) (utf_len : Nat) (isDir : Bool) : List Nat :=
  let bytes := name.flatten
  if bytes.length ≠ utf_len then
    let copy := if utf_len > NAME_LEN then NAME_LEN - 3 + 1 else NAME_LEN + 1
    let copied := (name.take (copy - 1)).flatten
    if utf_len > NAME_LEN then
      copied ++ sz "..&gt;</a></td><td>"
    else
      copied ++ (if isDir && decide (NAME_LEN - utf_len > 0) then [47] else [])
        ++ sz "</a></td><td>"
  else
    let copied := bytes.take NAME_LEN
    if utf_len > NAME_LEN then
      copied.take (copied.length - 3) ++ sz "..&gt;</a></td><td>"
    else
      copied ++ (if isDir && decide (NAME_LEN - utf_len > 0) then [47] else [])
        ++ sz "</a></td><td>"

/-- Calendar fields produced by the nginx core `ngx_gmtime` decomposition
(Gauss' formula); only the fields the handler prints are kept. -/
structure Tm where
  mday : Nat
  mon : Nat
  year : Nat
  hour : Nat
  minute : Nat
deriving DecidableEq, Repr

/-- Model of the nginx core `ngx_gmtime` (valid for non-negative times, as
the original notes). `days - (31 + 28) + 719527` is written `days + 719468`
since the two constants combine before any wraparound can matter. -/
def ngx_gmtime (t : Nat) : Tm :=
  let days0 := t / 86400
  let rem := t % 86400
  let hour := rem / 3600
  let minute := rem % 3600 / 60
  let days := days0 + 719468
  let year0 := (days + 2) * 400 / (365 * 400 + 97)
  let yday0 : Int := (days : Int) -
    (365 * year0 + year0 / 4 - year0 / 100 + year0 / 400 : Nat)
  let leap : Nat :=
    if year0 % 4 = 0 ∧ (year0 % 100 ≠ 0 ∨ year0 % 400 = 0) then 1 else 0
  let year1 := if yday0 < 0 then year0 - 1 else year0
  let yday : Int := if yday0 < 0 then 365 + leap + yday0 else yday0
  let mon0 := ((yday + 31) * 10 / 306).toNat
  let mday := (yday - (367 * mon0 / 12 - 30 : Nat) + 1).toNat
  if yday ≥ 306 then
    { mday := mday, mon := mon0 - 10, year := year1 + 1, hour := hour, minute := minute }
  else
    { mday := mday, mon := mon0 + 2, year := year1, hour := hour, minute := minute }

/-- The fixed 3-letter month table (source lines 238–239). -/
def months : List (List Nat) :=
  [sz "Jan", sz "Feb", sz "Mar", sz "Apr", sz "May", sz "Jun",
   sz "Jul", sz "Aug", sz "Sep", sz "Oct", sz "Nov", sz "Dec"]

/-- Timestamp cell text `%02d-%s-%d %02d:%02d` (source lines 631–638),
applied to `mtime + gmtoff * 60 * localtime` decomposed by `ngx_gmtime`. -/
def dateCell (localtime : Bool) (gmtoff : Int) (mtime : Nat) : List Nat :=
  let t := ((mtime : Int) + gmtoff * 60 * (if localtime then 1 else 0)).toNat
  let tm := ngx_gmtime t
  pad2 tm.mday ++ [45] ++ (months.getD (tm.mon - 1) []) ++ [45] ++ digitsB tm.year
    ++ [32] ++ pad2 tm.hour ++ [58] ++ pad2 tm.minute

/-- `ngx_http_fancyindex_loc_conf_t`, restricted to the fields the handler
reads. -/
structure Conf where
  enable : Bool
  localtime : Bool
  exact_size : Bool
  readme : List Nat
  readme_flags : Nat
deriving DecidableEq, Repr

/-- Size cell of one row (factoring of source lines 581–629 as used by the
row writer). -/
def rowSizeCell (c : Conf) (e : Entry) : List Nat :=
  fancySize c.exact_size e.dir e.size

/-- Bytes of one table row (source lines 524–643): row class alternates
`e`/`o` by index parity, the href holds the escaped name plus a slash for
directories, then the visible-name cell, the size cell and the date cell. -/
def rowBytes (c : Conf) (gmtoff : Int) (i : Nat) (e : Entry) : List Nat :=
  sz "<tr class=\"" ++ [if i &&& 1 == 0 then 101 else 111]
    ++ sz "\"><td><a href=\""
    ++ (if e.escape ≠ 0 then escapeHtmlUri e.nameBytes else e.nameBytes)
    ++ (if e.dir then [47] else [])
    ++ [34, 62]
    ++ visibleNameSection e.name e.utf_len e.dir
    ++ rowSizeCell c e
    ++ sz "</td><td>" ++ dateCell c.localtime gmtoff e.mtime ++ sz "</td></tr>"
    ++ [13, 10]

/-- All rows, in render order with their parity indices. -/
def listingRows (c : Conf) (gmtoff : Int) (entries : List Entry) : List (List Nat) :=
  (renderOrder entries).enum.map (fun p => rowBytes c gmtoff p.1 p.2)

/-- The nine fixed template fragments `t01_head1` … `t09_foot1` supplied by
the template collaborator (their text lives in the module header, outside
`src/`); only their bytes matter here. -/
structure Templates where
  t01 : List Nat
  t02 : List Nat
  t03 : List Nat
  t04 : List Nat
  t05 : List Nat
  t06 : List Nat
  t07 : List Nat
  t08 : List Nat
  t09 : List Nat
deriving DecidableEq, Repr

/-- Modelled from the spec: `NFI_TEMPLATE_SIZE` is defined in the module
header (not under `src/`); per §4.4 it accounts for the "fixed template
fragment lengths (head/body/foot boilerplate)", i.e. the summed byte
lengths of the nine fragments. -/
def NFI_TEMPLATE_SIZE (t : Templates) : Nat :=
  t.t01.length + t.t02.length + t.t03.length + t.t04.length + t.t05.length
    + t.t06.length + t.t07.length + t.t08.length + t.t09.length

/-- `nfi_get_readme_path` (source lines 747–770): `none` when the readme
file name is unconfigured or when `ngx_file_info` on the joined
`path/readme` fails for any reason; otherwise the joined path. The
`probe` oracle is the outcome `ngx_file_info` would have on that path. -/
def nfi_get_readme_path (path readme : List Nat) (probe : Except Errno Unit) :
    Option (List Nat) :=
  if readme.length = 0 then none
  else
    match probe with
    | .ok _ => some (path ++ [47] ++ readme)
    | .error _ => none

/-- The `nfi_add_readme_iframe` markup (source lines 498–507). -/
def iframeMarkup (uri readme : List Nat) : List Nat :=
  sz "<iframe id=\"readme\" src=\"" ++ uri ++ [47] ++ readme
    ++ sz "\">(readme file)</iframe>" ++ [13, 10]

/-- Readme bytes inserted before the table (source lines 493–515): skipped
when the readme is absent or the `TOP` placement flag is not set; with
`IFRAME` set the iframe markup is written, otherwise only a warning is
logged. -/
def readmeInsertTop (uri readme : List Nat) (flags : Nat) (rp : Option (List Nat)) :
    List Nat :=
  match rp with
  | none => []
  | some _ =>
    if !nfi_has_flag flags README_TOP then []
    else if nfi_has_flag flags README_IFRAME then iframeMarkup uri readme
    else []

/-- Readme bytes inserted after the table (source lines 657–668), same
shape with the `BOTTOM` placement flag. -/
def readmeInsertBottom (uri readme : List Nat) (flags : Nat) (rp : Option (List Nat)) :
    List Nat :=
  match rp with
  | none => []
  | some _ =>
    if !nfi_has_flag flags README_BOTTOM then []
    else if nfi_has_flag flags README_IFRAME then iframeMarkup uri readme
    else []

/-- Readme contribution to the precomputed buffer size (source lines
426–448): when a readme is present and `IFRAME` is requested, one copy of
the iframe markup (`CR+LF+'/'` plus the two literals, the URI and the
readme name) is added. -/
def readmeEstimate (uri readme : List Nat) (flags : Nat) (rp : Option (List Nat)) : Nat :=
  match rp with
  | none => 0
  | some _ =>
    if nfi_has_flag flags README_IFRAME then
      3 + nfi_sizeof_ssz "<iframe id=\"readme\" src=\""
        + uri.length + readme.length
        + nfi_sizeof_ssz "\">(readme file)</iframe>"
    else 0

/-- Per-entry contribution to the precomputed buffer size (source lines
450–472). -/
def rowEstimate (e : Entry) : Nat :=
  nfi_sizeof_ssz "<tr class=\"X\"><td><a href=\""
    + e.nameBytes.length + e.escape
    + nfi_sizeof_ssz "\">"
    + e.nameBytes.length + e.utf_len
    + NAME_LEN + nfi_sizeof_ssz "&gt;"
    + nfi_sizeof_ssz "</a></td><td>"
    + 20
    + nfi_sizeof_ssz "</td><td>"
    + nfi_sizeof_ssz " 28-Sep-1970 12:00 "
    + nfi_sizeof_ssz "</td></tr>\n"
    + 2

/-- The size-estimation pass (source lines 421–472): template total, the
URI twice (title and heading), the readme allowance, and one allowance per
collected entry. -/
def estimateLen (t : Templates) (uri : List Nat) (c : Conf) (rp : Option (List Nat))
    (entries : List Entry) : Nat :=
  NFI_TEMPLATE_SIZE t + uri.length + uri.length
    + readmeEstimate uri c.readme c.readme_flags rp
    + (entries.map rowEstimate).sum

/-- The rendering pass (source lines 485–674): head with the URI, body
with the URI, optional top readme, table head, the rows in render order,
table foot, optional bottom readme, body close, foot. -/
def renderBody (t : Templates) (uri : List Nat) (c : Conf) (rp : Option (List Nat))
    (gmtoff : Int) (entries : List Entry) : List Nat :=
  t.t01 ++ uri ++ t.t02
    ++ t.t03 ++ uri ++ t.t04
    ++ readmeInsertTop uri c.readme c.readme_flags rp
    ++ t.t05
    ++ (listingRows c gmtoff entries).flatten
    ++ t.t06
    ++ t.t07
    ++ readmeInsertBottom uri c.readme c.readme_flags rp
    ++ t.t08
    ++ t.t09

/-- Mapping of `ngx_open_dir` failures to response statuses (source lines
275–298). -/
def openErrFault (e : Errno) : Fault :=
  if e = .ENOENT ∨ e = .ENOTDIR ∨ e = .ENAMETOOLONG then .notFound
  else if e = .EACCES then .accessDenied
  else .serverFault

/-- Request fields the handler reads: the logical URI, the
zero-byte-in-URI flag, the method bitmask and the UTF-8 charset flag. -/
structure Request where
  uri : List Nat
  zeroInUri : Bool
  method : Nat
  utf8 : Bool
deriving DecidableEq, Repr

/-- Filesystem/environment oracles for one invocation: the mapped
directory path, the outcome of `ngx_open_dir` (with the dirent stream on
success), the outcome of `ngx_file_info` on the joined readme path, and
the timezone offset in minutes. -/
structure Fs where
  path : List Nat
  openDir : Except Errno (List Dirent)
  readmeProbe : Except Errno Unit
  gmtoff : Int
deriving Repr

/-- `ngx_http_fancyindex_handler` (source lines 217–686): decline unless
the URI names a directory, the method is GET or HEAD and the module is
enabled; map directory-open failures to statuses; collect entries (any
probe failure aborting with an internal error); resolve the readme;
estimate, sort and render. -/
def fancyindexHandler (r : Request) (c : Conf) (t : Templates) (fs : Fs) :
    HandlerResult :=
  if r.uri.getLast? ≠ some 47 then .declined
  else if r.zeroInUri then .declined
  else if r.method &&& (NGX_HTTP_GET ||| NGX_HTTP_HEAD) = 0 then .declined
  else if c.enable = false then .declined
  else
    match fs.openDir with
    | .error e => .fault (openErrFault e)
    | .ok dirents =>
      match collectEntries r.utf8 dirents with
      | .error f => .fault f
      | .ok entries =>
        let rp := nfi_get_readme_path fs.path c.readme fs.readmeProbe
        .output (renderBody t r.uri c rp fs.gmtoff entries)

/-- Display width of a name in the sense of §3 of the spec: codepoints in
UTF-8 mode, raw bytes otherwise. -/
def displayWidth : Bool → List (List Nat) → Nat
  | true, name => name.length
  | false, name => name.flatten.length

/-- Display units of a name: the codepoints in UTF-8 mode, the single
bytes otherwise. -/
def displayUnits : Bool → List (List Nat) → List (List Nat)
  | true, name => name
  | false, name => name.flatten.map (fun b => [b])

/-- Visible-name cell as the handler renders it for a collected entry:
`utf_len` is the display width computed at collection time
(source lines 405–409), the unit count in UTF-8 mode and the byte count
otherwise. -/
def renderVisibleName : Bool → List (List Nat) → Bool → List Nat
  | true, name, isDir => visibleNameSection name name.length isDir
  | false, name, isDir => visibleNameSection name name.flatten.length isDir

/-- Byte-wise lexicographic order on raw byte strings (the order named by
§4.2 of the spec). -/
def lexLeB : List Nat → List Nat → Bool
  | [], _ => true
  | _ :: _, [] => false
  | a :: as, b :: bs => decide (a < b) || (a == b && lexLeB as bs)

/-- Ordering every pair of rendered rows must satisfy per the spec:
directories before non-directories, byte-wise lexicographic raw names
within one kind. -/
def rowOrderOk (a b : Entry) : Prop :=
  (a.dir = true ∧ b.dir = false) ∨ (a.dir = b.dir ∧ lexLeB a.nameBytes b.nameBytes = true)

/-- Empty template fragments (the fragment text is external; zero-length
fragments make the capacity comparison exact). -/
def tmplEmpty : Templates := ⟨[], [], [], [], [], [], [], [], []⟩

/-- Configuration with a readme configured and `bottom iframe` readme
options, exercising the double-insertion path. -/
def confBottomIframe : Conf :=
  { enable := true, localtime := false, exact_size := true,
    readme := sz "README", readme_flags := README_BOTTOM ||| README_IFRAME }

/-- Scenario-1 configuration: human-readable sizes, no readme. -/
def confScenario : Conf :=
  { enable := true, localtime := false, exact_size := false,
    readme := [], readme_flags := 0 }

/-- Scenario-1 dirent for the 2048-byte file `report.txt`. -/
def reportDirent : Dirent :=
  { name := [[114], [101], [112], [111], [114], [116], [46], [116], [120], [116]],
    validInfo := some { isDir := false, mtime := 0, size := 2048 },
    deInfo := .ok { isDir := false, mtime := 0, size := 2048 },
    deLinkInfo := .ok { isDir := false, mtime := 0, size := 2048 } }

/-- Scenario-1 dirent for the subdirectory `images`. -/
def imagesDirent : Dirent :=
  { name := [[105], [109], [97], [103], [101], [115]],
    validInfo := some { isDir := true, mtime := 0, size := 4096 },
    deInfo := .ok { isDir := true, mtime := 0, size := 4096 },
    deLinkInfo := .ok { isDir := true, mtime := 0, size := 4096 } }

/-- Collected entry for `report.txt`. -/
def reportEnt : Entry :=
  { name := [[114], [101], [112], [111], [114], [116], [46], [116], [120], [116]],
    utf_len := 10, escape := 0, dir := false, mtime := 0, size := 2048 }

/-- Collected entry for `images`. -/
def imagesEnt : Entry :=
  { name := [[105], [109], [97], [103], [101], [115]],
    utf_len := 6, escape := 0, dir := true, mtime := 0, size := 4096 }

/-- A child that vanished between `ngx_read_dir` and the metadata probes:
both `ngx_de_info` and `ngx_de_link_info` report `NGX_ENOENT`. -/
def goneDirent : Dirent :=
  { name := [[103], [111], [110], [101]], validInfo := none,
    deInfo := .error .ENOENT, deLinkInfo := .error .ENOENT }

/-- A healthy child (metadata supplied by the directory read itself). -/
def okDirent : Dirent :=
  { name := [[111], [107]],
    validInfo := some { isDir := false, mtime := 0, size := 7 },
    deInfo := .ok { isDir := false, mtime := 0, size := 7 },
    deLinkInfo := .ok { isDir := false, mtime := 0, size := 7 } }

/-- A child whose direct probe fails with an error other than
`NGX_ENOENT`. -/
def badDirent : Dirent :=
  { name := [[98], [97], [100]], validInfo := none,
    deInfo := .error (.other 5),
    deLinkInfo := .ok { isDir := false, mtime := 0, size := 7 } }

/-- Three-entry sample listing (a file `b`, a directory `z`, a file `a`)
for exercising the sort order. -/
def sampleEntries : List Entry :=
  [{ name := [[98]], utf_len := 1, escape := 0, dir := false, mtime := 0, size := 1 },
   { name := [[122]], utf_len := 1, escape := 0, dir := true, mtime := 0, size := 0 },
   { name := [[97]], utf_len := 1, escape := 0, dir := false, mtime := 0, size := 2 }]

/-- A 55-character ASCII name (55 single-byte units). -/
def longName55 : List (List Nat) := List.replicate 55 [97]

/-- Sample request: `GET /d/` with UTF-8 off. -/
def reqSample : Request :=
  { uri := sz "/d/", zeroInUri := false, method := NGX_HTTP_GET, utf8 := false }

/-- Sample environment whose directory open fails with `NGX_EACCES`. -/
def fsEacces : Fs :=
  { path := sz "/root/d", openDir := .error .EACCES,
    readmeProbe := .ok (), gmtoff := 0 }

/-- Sample environment with an empty directory and a readme present. -/
def fsReadme : Fs :=
  { path := sz "/root/d", openDir := .ok [],
    readmeProbe := .ok (), gmtoff := 0 }

/-- C10: a request whose URI does not end in `/`, or whose method bitmask
matches neither GET nor HEAD, or for which the module is disabled, is
declined, for every filesystem state (so the directory is never opened and
no output is produced). -/
theorem C10_declines (r : Request) (c : Conf) (t : Templates) (fs : Fs)
    (h : r.uri.getLast? ≠ some 47 ∨ r.method &&& (NGX_HTTP_GET ||| NGX_HTTP_HEAD) = 0
      ∨ c.enable = false) :
    fancyindexHandler r c t fs = .declined := by
  rcases h with h | h | h <;> simp [fancyindexHandler, h]

/-- C10 witness: a POST request (method bit 8) to an enabled location is
declined. -/
theorem C10_declines_witness :
    fancyindexHandler { reqSample with method := 8 } confScenario tmplEmpty fsReadme
      = .declined :=
  C10_declines _ _ _ _ (Or.inr (Or.inl (by decide)))

/-- C7: when opening the listed directory fails, the handler returns the
status mapped from the errno — `NotFound` for missing entry, not a
directory, or name too long; `AccessDenied` for a permission refusal;
`ServerFault` for anything else — and produces a fault, not output. -/
theorem C7_openFailMapping (r : Request) (c : Conf) (t : Templates) (fs : Fs) (e : Errno)
    (h1 : r.uri.getLast? = some 47) (h2 : r.zeroInUri = false)
    (h3 : r.method &&& (NGX_HTTP_GET ||| NGX_HTTP_HEAD) ≠ 0) (h4 : c.enable = true)
    (h5 : fs.openDir = .error e) :
    fancyindexHandler r c t fs = .fault (openErrFault e)
    ∧ ((e = .ENOENT ∨ e = .ENOTDIR ∨ e = .ENAMETOOLONG) → openErrFault e = .notFound)
    ∧ (e = .EACCES → openErrFault e = .accessDenied)
    ∧ (e ≠ .ENOENT → e ≠ .ENOTDIR → e ≠ .ENAMETOOLONG → e ≠ .EACCES →
        openErrFault e = .serverFault) := by
  refine ⟨?_, ?_, ?_, ?_⟩
  · simp [fancyindexHandler, h1, h2, h3, h4, h5]
  · rintro (rfl | rfl | rfl) <;> decide
  · rintro rfl; decide
  · intro a b c' d; simp [openErrFault, a, b, c', d]

/-- C7 witness: a permission failure on `GET /d/` yields `AccessDenied`. -/
theorem C7_openFailMapping_witness :
    fancyindexHandler reqSample confScenario tmplEmpty fsEacces
      = .fault (openErrFault .EACCES)
    ∧ openErrFault .EACCES = .accessDenied :=
  ⟨(C7_openFailMapping reqSample confScenario tmplEmpty fsEacces .EACCES
      (by decide) (by decide) (by decide) (by decide) rfl).1,
   (C7_openFailMapping reqSample confScenario tmplEmpty fsEacces .EACCES
      (by decide) (by decide) (by decide) (by decide) rfl).2.2.1 rfl⟩

set_option maxRecDepth 10000 in
/-- C1 (capacity violation at a concrete input): with a readme present and
readme options `bottom iframe`, even an empty listing makes the renderer
write more bytes than the size-estimation pass allotted — the estimator
adds one iframe copy while the renderer inserts the markup both at the top
(the `TOP` flag is `0x00`, so its test always passes) and at the bottom. -/
theorem C1_capacityUnderestimate :
    fancyindexHandler reqSample confBottomIframe tmplEmpty fsReadme
      = .output (renderBody tmplEmpty reqSample.uri confBottomIframe
          (nfi_get_readme_path fsReadme.path confBottomIframe.readme fsReadme.readmeProbe)
          fsReadme.gmtoff [])
    ∧ estimateLen tmplEmpty reqSample.uri confBottomIframe
        (nfi_get_readme_path fsReadme.path confBottomIframe.readme fsReadme.readmeProbe) []
      < (renderBody tmplEmpty reqSample.uri confBottomIframe
          (nfi_get_readme_path fsReadme.path confBottomIframe.readme fsReadme.readmeProbe)
          fsReadme.gmtoff []).length := by
  decide

/-- C3 counterexample: with `exactSize=false`, 2048 bytes do NOT render as
`   2K` (2048 is below the `> 9999` threshold, so the raw count is
printed), and 10000 bytes do not render as the 5-character `  10K` (the
field is `%6i` plus the suffix). -/
theorem C3_sizeStrings_cex :
    fancySize false false 2048 ≠ sz "   2K"
    ∧ fancySize false false 10000 ≠ sz "  10K" := by
  decide

/-- C3 amended: the scenario directory collects to the two expected
entries, renders exactly two rows with `images` first, the `images` row
shows a dash and the `report.txt` row shows `   2048` (raw byte count);
a 10000-byte file renders as `    10K`. -/
theorem C3_scenario_amended :
    collectEntries false [reportDirent, imagesDirent] = .ok [reportEnt, imagesEnt]
    ∧ (listingRows confScenario 0 [reportEnt, imagesEnt]).length = 2
    ∧ renderOrder [reportEnt, imagesEnt] = [imagesEnt, reportEnt]
    ∧ (renderOrder [reportEnt, imagesEnt]).map (rowSizeCell confScenario)
        = [sz "-", sz "   2048"]
    ∧ fancySize false false 10000 = sz "    10K" := by
  decide

/-- C4 counterexample: a 16 TiB file scales to magnitude 16384 with suffix
`G`, so the scaled magnitude is not bounded by 9999. -/
theorem C4_magnitude_cex :
    fancySize false false 17592186044416 = rightAlign 6 (digitsB 16384) ++ [71]
    ∧ ¬ (16384 ≤ 9999) := by
  decide

/-- C9: the `TOP` placement test is always satisfied (the flag is `0x00`),
so with a readme present and both `BOTTOM` and `IFRAME` set the iframe
markup is inserted both before and after the table, while the estimator's
readme allowance equals the byte length of a single copy. -/
theorem C9_doubleInsertion (uri readme rp : List Nat) (flags : Nat)
    (hb : nfi_has_flag flags README_BOTTOM = true)
    (hi : nfi_has_flag flags README_IFRAME = true) :
    nfi_has_flag flags README_TOP = true
    ∧ readmeInsertTop uri readme flags (some rp) = iframeMarkup uri readme
    ∧ readmeInsertBottom uri readme flags (some rp) = iframeMarkup uri readme
    ∧ readmeEstimate uri readme flags (some rp) = (iframeMarkup uri readme).length := by
  have htop : nfi_has_flag flags README_TOP = true := by
    simp [nfi_has_flag, README_TOP]
  refine ⟨htop, ?_, ?_, ?_⟩
  · simp [readmeInsertTop, htop, hi]
  · simp [readmeInsertBottom, hb, hi]
  · have l1 : nfi_sizeof_ssz "<iframe id=\"readme\" src=\"" = 25 := rfl
    have l2 : nfi_sizeof_ssz "\">(readme file)</iframe>" = 24 := rfl
    have l3 : (sz "<iframe id=\"readme\" src=\"").length = 25 := rfl
    have l4 : (sz "\">(readme file)</iframe>").length = 24 := rfl
    simp [readmeEstimate, hi, iframeMarkup, l1, l2, l3, l4]
    omega

/-- C9 witness: with flags `bottom|iframe` (0x0A) both insertions yield the
markup and the estimator counts one copy. -/
theorem C9_doubleInsertion_witness :
    readmeInsertTop (sz "/d/") (sz "README") 10 (some (sz "/root/d/README"))
      = iframeMarkup (sz "/d/") (sz "README")
    ∧ readmeInsertBottom (sz "/d/") (sz "README") 10 (some (sz "/root/d/README"))
      = iframeMarkup (sz "/d/") (sz "README")
    ∧ readmeEstimate (sz "/d/") (sz "README") 10 (some (sz "/root/d/README"))
      = (iframeMarkup (sz "/d/") (sz "README")).length :=
  (C9_doubleInsertion (sz "/d/") (sz "README") (sz "/root/d/README") 10
    (by decide) (by decide)).2

/-- C8: the readme resolver returns absent exactly when the readme name is
unconfigured or the existence probe fails (whatever the reason); an absent
readme suppresses both iframe insertions for every flag combination; and
the probe's outcome never changes whether the operation is declined or
fails (it is never surfaced as an operation error). -/
theorem C8_readmeResolver :
    (∀ (path readme : List Nat) (probe : Except Errno Unit),
      nfi_get_readme_path path readme probe = none
        ↔ (readme = [] ∨ ∃ e, probe = .error e))
    ∧ (∀ (uri readme : List Nat) (flags : Nat),
      readmeInsertTop uri readme flags none = []
      ∧ readmeInsertBottom uri readme flags none = [])
    ∧ (∀ (r : Request) (c : Conf) (t : Templates) (fs : Fs)
        (p2 : Except Errno Unit) (f : Fault),
      fancyindexHandler r c t fs = .fault f
        ↔ fancyindexHandler r c t { fs with readmeProbe := p2 } = .fault f) := by
  refine ⟨?_, ?_, ?_⟩
  · intro path readme probe
    cases probe with
    | ok u =>
      cases readme <;> simp [nfi_get_readme_path]
    | error e =>
      cases readme <;> simp [nfi_get_readme_path]
  · intro uri readme flags
    exact ⟨rfl, rfl⟩
  · intro r c t fs p2 f
    obtain ⟨pa, od, pr, go⟩ := fs
    by_cases h1 : r.uri.getLast? ≠ some 47
    · simp [fancyindexHandler, h1]
    · by_cases h2 : r.zeroInUri
      · simp [fancyindexHandler, h1, h2]
      · by_cases h3 : r.method &&& (NGX_HTTP_GET ||| NGX_HTTP_HEAD) = 0
        · simp [fancyindexHandler, h1, h2, h3]
        · by_cases h4 : c.enable = false
          · simp [fancyindexHandler, h1, h2, h3, h4]
          · cases od with
            | error e => simp [fancyindexHandler, h1, h2, h3, h4]
            | ok ds =>
              cases hc : collectEntries r.utf8 ds with
              | error fa => simp [fancyindexHandler, h1, h2, h3, h4, hc]
              | ok es => simp [fancyindexHandler, h1, h2, h3, h4, hc]

/-- Increment-on-large-remainder equals round-half-up division, G unit. -/
theorem roundHalfG (n : Nat) :
    n / 1073741824 + (if n % 1073741824 > 536870911 then 1 else 0)
      = (n + 536870912) / 1073741824 := by
  split_ifs <;> omega

/-- Increment-on-large-remainder equals round-half-up division, M unit. -/
theorem roundHalfM (n : Nat) :
    n / 1048576 + (if n % 1048576 > 524287 then 1 else 0)
      = (n + 524288) / 1048576 := by
  split_ifs <;> omega

/-- Increment-on-large-remainder equals round-half-up division, K unit. -/
theorem roundHalfK (n : Nat) :
    n / 1024 + (if n % 1024 > 511 then 1 else 0) = (n + 512) / 1024 := by
  split_ifs <;> omega

/-- C4 amended: size rendering as the code computes it — directories are
always a dash; `exactSize` renders the raw count right-justified in 19
columns with no suffix; otherwise the suffix is `G` from 1024³, `M` from
1024², `K` above 9999 bytes, else the raw count with a leading space; each
scaled magnitude is the round-half-up quotient by the unit; the magnitude
stays within 0–9999 for the `K` and `M` scales (at most 1024, at least 10
for `K`) but is NOT bounded by 9999 for `G`. -/
theorem C4_sizeRendering (n : Nat) :
    (∀ ex : Bool, fancySize ex true n = [45])
    ∧ fancySize true false n = rightAlign 19 (digitsB n)
    ∧ (1073741824 ≤ n →
        fancySize false false n
          = rightAlign 6 (digitsB ((n + 536870912) / 1073741824)) ++ [71])
    ∧ (1048576 ≤ n → n < 1073741824 →
        fancySize false false n
          = rightAlign 6 (digitsB ((n + 524288) / 1048576)) ++ [77]
        ∧ (n + 524288) / 1048576 ≤ 1024)
    ∧ (9999 < n → n < 1048576 →
        fancySize false false n
          = rightAlign 6 (digitsB ((n + 512) / 1024)) ++ [75]
        ∧ 10 ≤ (n + 512) / 1024 ∧ (n + 512) / 1024 ≤ 1024)
    ∧ (n ≤ 9999 → fancySize false false n = 32 :: rightAlign 6 (digitsB n)) := by
  refine ⟨?_, ?_, ?_, ?_, ?_, ?_⟩
  · intro ex; cases ex <;> rfl
  · rfl
  · intro h
    have h1 : n > 1024 * 1024 * 1024 - 1 := by omega
    simp only [fancySize, Bool.false_eq_true, if_false, if_pos h1]
    rw [roundHalfG]
  · intro h h'
    have h1 : ¬ n > 1024 * 1024 * 1024 - 1 := by omega
    have h2 : n > 1024 * 1024 - 1 := by omega
    refine ⟨?_, by omega⟩
    simp only [fancySize, Bool.false_eq_true, if_false, if_neg h1, if_pos h2]
    rw [roundHalfM]
  · intro h h'
    have h1 : ¬ n > 1024 * 1024 * 1024 - 1 := by omega
    have h2 : ¬ n > 1024 * 1024 - 1 := by omega
    have h3 : n > 9999 := by omega
    refine ⟨?_, by omega, by omega⟩
    simp only [fancySize, Bool.false_eq_true, if_false, if_neg h1, if_neg h2, if_pos h3]
    rw [roundHalfK]
  · intro h
    have h1 : ¬ n > 1024 * 1024 * 1024 - 1 := by omega
    have h2 : ¬ n > 1024 * 1024 - 1 := by omega
    have h3 : ¬ n > 9999 := by omega
    simp only [fancySize, Bool.false_eq_true, if_false, if_neg h1, if_neg h2, if_neg h3]

/-- C4 witness: 10000 bytes scale to `    10K` by round-half-up, and a
directory of the same size renders as a dash. -/
theorem C4_sizeRendering_witness :
    fancySize false false 10000 = rightAlign 6 (digitsB ((10000 + 512) / 1024)) ++ [75]
    ∧ fancySize false true 10000 = [45] :=
  ⟨((C4_sizeRendering 10000).2.2.2.2.1 (by decide) (by decide)).1,
   (C4_sizeRendering 10000).1 false⟩

/-- The only failure a metadata probe can surface is the internal server
error. -/
theorem probeInfo_fault (d : Dirent) (f : Fault) (h : probeInfo d = .error f) :
    f = .serverFault := by
  rcases hv : d.validInfo with _ | i <;> simp only [probeInfo, hv] at h
  · rcases hd : d.deInfo with e | i <;> simp only [hd] at h
    · by_cases he : e = Errno.ENOENT
      · rw [if_neg (by simp [he])] at h
        rcases hl : d.deLinkInfo with e2 | i2 <;> simp only [hl] at h
        · exact (Except.error.inj h).symm
        · exact absurd h (by simp)
      · rw [if_pos he] at h
        exact (Except.error.inj h).symm
    · exact absurd h (by simp)
  · exact absurd h (by simp)

/-- A failing probe on any non-hidden child makes the whole collection
fail with the internal server error. -/
theorem collect_fault_of_probe (u8 : Bool) (ds : List Dirent) (d : Dirent)
    (hmem : d ∈ ds) (hdot : ¬ d.name.flatten.head? = some 46)
    (hpe : probeInfo d = .error .serverFault) :
    collectEntries u8 ds = .error .serverFault := by
  induction ds with
  | nil => cases hmem
  | cons a as ih =>
    rcases List.mem_cons.mp hmem with rfl | hmem2
    · rw [collectEntries, if_neg hdot, hpe]
    · by_cases hda : a.name.flatten.head? = some 46
      · rw [collectEntries, if_pos hda]
        exact ih hmem2
      · rw [collectEntries, if_neg hda]
        cases hpa : probeInfo a with
        | error f => rw [probeInfo_fault a f hpa]
        | ok info => rw [ih hmem2]; rfl

/-- C2 counterexample: a child that vanished between the directory read
and the metadata probes (both probes fail with `NGX_ENOENT`) is NOT
silently skipped — the whole collection fails with ServerFault instead of
producing the empty row list. -/
theorem C2_vanished_cex :
    collectEntries false [goneDirent] = .error .serverFault
    ∧ collectEntries false [goneDirent] ≠ .ok [] := by
  decide

/-- C2 amended: when the read did not supply metadata and the direct probe
fails — with any error other than `NGX_ENOENT`, or with `NGX_ENOENT` while
the fallback link probe also fails for any reason (including a vanished
entry) — the whole operation fails with ServerFault; no entry is ever
silently skipped because of probe failures (only dot-prefixed names are
skipped). -/
theorem C2_probeFailure (u8 : Bool) (ds : List Dirent) (d : Dirent) (e : Errno)
    (hmem : d ∈ ds)
    (hdot : ¬ d.name.flatten.head? = some 46)
    (hvi : d.validInfo = none)
    (hde : d.deInfo = .error e)
    (hfb : e ≠ .ENOENT ∨ ∃ e2, d.deLinkInfo = .error e2) :
    collectEntries u8 ds = .error .serverFault := by
  have hp : probeInfo d = .error .serverFault := by
    simp only [probeInfo, hvi, hde]
    rcases hfb with hne | ⟨e2, hl⟩
    · rw [if_pos hne]
    · by_cases hne : e = Errno.ENOENT
      · rw [if_neg (by simp [hne]), hl]
      · rw [if_pos hne]
  exact collect_fault_of_probe u8 ds d hmem hdot hp

/-- C2 witness: a listing with a healthy child followed by a child whose
direct probe fails with a non-`ENOENT` error collapses to ServerFault. -/
theorem C2_probeFailure_witness :
    collectEntries false [okDirent, badDirent] = .error .serverFault :=
  C2_probeFailure false [okDirent, badDirent] badDirent (.other 5)
    (by decide) (by decide) rfl rfl (Or.inl (by decide))

/-- Comparing the empty string never yields a positive result. -/
theorem strcmpB_nil_le (x : List Nat) : strcmpB [] x ≤ 0 := by
  cases x with
  | nil => simp [strcmpB]
  | cons b bs => simp [strcmpB]

/-- `strcmpB` is antisymmetric up to negation, like C `strcmp`. -/
theorem strcmpB_antisym (x y : List Nat) : strcmpB y x = - strcmpB x y := by
  induction x generalizing y with
  | nil =>
    cases y with
    | nil => simp [strcmpB]
    | cons b bs => simp [strcmpB]
  | cons a as ih =>
    cases y with
    | nil => simp [strcmpB]
    | cons b bs =>
      by_cases hab : a = b
      · subst hab
        by_cases h0 : a = 0
        · simp [strcmpB, h0]
        · simp [strcmpB, h0]
          exact ih bs
      · have hba : ¬ b = a := fun h => hab h.symm
        simp [strcmpB, hab, hba]

/-- The non-positive `strcmpB` relation is transitive. -/
theorem strcmpB_trans {x y z : List Nat} (h1 : strcmpB x y ≤ 0) (h2 : strcmpB y z ≤ 0) :
    strcmpB x z ≤ 0 := by
  induction x generalizing y z with
  | nil => exact strcmpB_nil_le z
  | cons a as ih =>
    cases y with
    | nil =>
      have ha : a = 0 := by simp [strcmpB] at h1; omega
      subst ha
      cases z with
      | nil => simp [strcmpB]
      | cons c cs =>
        by_cases hac : (0 : Nat) = c
        · simp [strcmpB, ← hac]
        · simp [strcmpB, hac]
    | cons b bs =>
      cases z with
      | nil =>
        have hb : b = 0 := by simp [strcmpB] at h2; omega
        subst hb
        by_cases hab : a = 0
        · simp [strcmpB, hab]
        · simp [strcmpB, hab] at h1
      | cons c cs =>
        by_cases hab : a = b
        · subst hab
          by_cases h0 : a = 0
          · by_cases hac : a = c
            · simp [strcmpB, ← hac, h0]
            · simp [strcmpB, hac, h0]
              omega
          · simp [strcmpB, h0] at h1
            by_cases hac : a = c
            · subst hac
              simp [strcmpB, h0] at h2 ⊢
              exact ih h1 h2
            · simp [strcmpB, hac] at h2 ⊢
              omega
        · simp [strcmpB, hab] at h1
          by_cases hbc : b = c
          · subst hbc
            simp [strcmpB, hab]
            omega
          · simp [strcmpB, hbc] at h2
            have hac : ¬ a = c := by omega
            simp [strcmpB, hac]
            omega

/-- The sort order is total. -/
theorem entryLE_total (a b : Entry) : entryLE a b ∨ entryLE b a := by
  unfold entryLE cmpEntries
  have h := strcmpB_antisym a.nameBytes b.nameBytes
  cases ha : a.dir <;> cases hb : b.dir <;> simp [ha, hb] <;> omega

/-- The sort order is transitive. -/
theorem entryLE_trans (a b c : Entry) (h1 : entryLE a b) (h2 : entryLE b c) :
    entryLE a c := by
  unfold entryLE cmpEntries at h1 h2 ⊢
  cases ha : a.dir <;> cases hb : b.dir <;> cases hc : c.dir <;>
    simp_all <;>
    exact strcmpB_trans h1 h2

/-- On zero-free byte strings a non-positive `strcmpB` means byte-wise
lexicographic order. -/
theorem strcmpB_le_lexLeB {x y : List Nat} (hx : ¬ 0 ∈ x) (hy : ¬ 0 ∈ y)
    (h : strcmpB x y ≤ 0) : lexLeB x y = true := by
  induction x generalizing y with
  | nil => rfl
  | cons a as ih =>
    have ha0 : a ≠ 0 := fun h0 => hx (by simp [h0])
    cases y with
    | nil =>
      simp [strcmpB] at h
      exact absurd (by omega : a = 0) ha0
    | cons b bs =>
      by_cases hab : a = b
      · subst hab
        simp [strcmpB, ha0] at h
        have hx2 : ¬ 0 ∈ as := fun hm => hx (by simp [hm])
        have hy2 : ¬ 0 ∈ bs := fun hm => hy (by simp [hm])
        simp [lexLeB, ih hx2 hy2 h]
      · simp [strcmpB, hab] at h
        have hlt : a < b := by omega
        simp [lexLeB, hlt]

/-- One sorted pair satisfies the spec's row ordering. -/
theorem entryLE_rowOrder {a b : Entry} (hza : ¬ 0 ∈ a.nameBytes)
    (hzb : ¬ 0 ∈ b.nameBytes) (h : entryLE a b) : rowOrderOk a b := by
  unfold entryLE cmpEntries at h
  unfold rowOrderOk
  cases ha : a.dir <;> cases hb : b.dir <;> simp [ha, hb] at h ⊢ <;>
    exact strcmpB_le_lexLeB hza hzb h

/-- C5: in the rendered row order, every directory precedes every
non-directory, and rows of one kind carry non-decreasing byte-wise
lexicographic raw names (for zero-free names, as filesystem names are). -/
theorem C5_sortOrder (l : List Entry) (hz : ∀ e ∈ l, ¬ 0 ∈ e.nameBytes) :
    (renderOrder l).Pairwise rowOrderOk := by
  unfold renderOrder
  by_cases hlen : l.length > 1
  · rw [if_pos hlen]
    haveI : IsTotal Entry entryLE := ⟨entryLE_total⟩
    haveI : IsTrans Entry entryLE := ⟨entryLE_trans⟩
    have hs : (sortEntries l).Pairwise entryLE := List.sorted_insertionSort entryLE l
    refine hs.imp_of_mem ?_
    intro a b hma hmb hab
    have hma2 : a ∈ l := by simpa [sortEntries] using hma
    have hmb2 : b ∈ l := by simpa [sortEntries] using hmb
    exact entryLE_rowOrder (hz a hma2) (hz b hmb2) hab
  · rw [if_neg hlen]
    cases l with
    | nil => simp
    | cons x xs =>
      cases xs with
      | nil => simp
      | cons y ys => exact absurd (by simp) hlen

/-- C5 witness: the three-entry sample has zero-free names and its render
order is pairwise correctly ordered. -/
theorem C5_sortOrder_witness :
    (∀ e ∈ sampleEntries, ¬ 0 ∈ e.nameBytes)
    ∧ (renderOrder sampleEntries).Pairwise rowOrderOk :=
  ⟨by decide, C5_sortOrder sampleEntries (by decide)⟩

/-- Nonempty units make the flattened string at least as long as the unit
list. -/
theorem units_length_le (l : List (List Nat)) (h : ∀ u ∈ l, u ≠ []) :
    l.length ≤ l.flatten.length := by
  induction l with
  | nil => simp
  | cons u us ih =>
    have hu : u.length ≥ 1 :=
      List.length_pos.mpr (h u (List.mem_cons_self u us))
    have hr := ih (fun v hv => h v (List.mem_cons_of_mem u hv))
    simp only [List.flatten_cons, List.length_append, List.length_cons]
    omega

/-- When the flattened length equals the unit count, every unit is a
single byte. -/
theorem units_all_single (l : List (List Nat)) (h : ∀ u ∈ l, u ≠ [])
    (hl : l.flatten.length = l.length) : ∀ u ∈ l, u.length = 1 := by
  induction l with
  | nil => intro u hu; cases hu
  | cons v vs ih =>
    have hv : v.length ≥ 1 :=
      List.length_pos.mpr (h v (List.mem_cons_self v vs))
    have hr := units_length_le vs (fun w hw => h w (List.mem_cons_of_mem v hw))
    simp only [List.flatten_cons, List.length_append, List.length_cons] at hl
    have hv1 : v.length = 1 := by omega
    have hl2 : vs.flatten.length = vs.length := by omega
    intro u hu
    rcases List.mem_cons.mp hu with rfl | hu2
    · exact hv1
    · exact ih (fun w hw => h w (List.mem_cons_of_mem v hw)) hl2 u hu2

/-- Flattening a take of single-byte units is a take of the flattening. -/
theorem flatten_take_single (l : List (List Nat)) (k : Nat)
    (h : ∀ u ∈ l, u.length = 1) : (l.take k).flatten = l.flatten.take k := by
  induction l generalizing k with
  | nil => simp
  | cons v vs ih =>
    cases k with
    | zero => simp
    | succ k2 =>
      have hv : v.length = 1 := h v (List.mem_cons_self v vs)
      rcases v with _ | ⟨b, t⟩
      · simp at hv
      · rcases t with _ | ⟨c, t2⟩
        · simp only [List.take_succ_cons, List.flatten_cons,
            List.cons_append, List.nil_append, List.take_cons]
          rw [ih k2 (fun w hw => h w (List.mem_cons_of_mem _ hw))]
        · simp at hv

/-- Taking through a map to single-byte units is a plain take. -/
theorem flatten_take_map_single (l : List Nat) (k : Nat) :
    ((l.map (fun b => [b])).take k).flatten = l.take k := by
  induction l generalizing k with
  | nil => simp
  | cons b bs ih =>
    cases k with
    | zero => simp
    | succ k2 => simp [ih k2]

/-- Splitting the combined ellipsis-and-cell-close literal. -/
theorem sz_ellipsis_split :
    sz "..&gt;</a></td><td>" = sz "..&gt;" ++ sz "</a></td><td>" := by decide

/-- C6: for every name whose display width (codepoints in UTF-8 mode, raw
bytes otherwise) exceeds 50 units, the visible-name cell keeps exactly the
47 leading units, closes with the `..&gt;`-style ellipsis marker, and no
trailing directory slash appears; a directory whose width is under 50
units (so with a spare column) gets a trailing slash. -/
theorem C6_truncation (u8 : Bool) (name : List (List Nat)) (isdir : Bool)
    (hne : ∀ u ∈ name, u ≠ []) :
    (displayWidth u8 name > 50 →
      renderVisibleName u8 name isdir =
        ((displayUnits u8 name).take 47).flatten ++ sz "..&gt;" ++ sz "</a></td><td>")
    ∧ (displayWidth u8 name < 50 → isdir = true →
      renderVisibleName u8 name isdir = name.flatten ++ [47] ++ sz "</a></td><td>") := by
  constructor
  · intro hw
    cases u8 with
    | false =>
      simp only [displayWidth] at hw
      have h1 : (name.flatten.take 50).take ((name.flatten.take 50).length - 3)
          = name.flatten.take 47 := by
        rw [List.length_take, List.take_take]
        have hm : min (min 50 name.flatten.length - 3) 50 = 47 := by omega
        rw [hm]
      simp only [renderVisibleName, visibleNameSection, NAME_LEN, displayUnits]
      rw [if_neg (by simp), if_pos hw, h1, flatten_take_map_single,
        sz_ellipsis_split, List.append_assoc]
    | true =>
      simp only [displayWidth] at hw
      by_cases hbe : name.flatten.length = name.length
      · have hall := units_all_single name hne hbe
        have h1 : (name.flatten.take 50).take ((name.flatten.take 50).length - 3)
            = name.flatten.take 47 := by
          rw [List.length_take, List.take_take]
          have hm : min (min 50 name.flatten.length - 3) 50 = 47 := by omega
          rw [hm]
        have h2 : (name.take 47).flatten = name.flatten.take 47 :=
          flatten_take_single name 47 hall
        simp only [renderVisibleName, visibleNameSection, NAME_LEN, displayUnits]
        rw [if_neg (not_not_intro hbe), if_pos hw, h1, ← h2,
          sz_ellipsis_split, List.append_assoc]
      · simp only [renderVisibleName, visibleNameSection, NAME_LEN, displayUnits]
        rw [if_pos hbe, if_pos hw, if_pos hw, sz_ellipsis_split, List.append_assoc]
  · intro hw hd
    subst hd
    cases u8 with
    | false =>
      simp only [displayWidth] at hw
      simp only [renderVisibleName, visibleNameSection, NAME_LEN]
      rw [if_neg (by simp), if_neg (by omega : ¬ name.flatten.length > 50),
        List.take_of_length_le (show name.flatten.length ≤ 50 by omega),
        if_pos (show (true && decide (50 - name.flatten.length > 0)) = true by
          simp only [Bool.true_and, decide_eq_true_eq]; omega),
        List.append_assoc]
    | true =>
      simp only [displayWidth] at hw
      by_cases hbe : name.flatten.length = name.length
      · simp only [renderVisibleName, visibleNameSection, NAME_LEN]
        rw [if_neg (not_not_intro hbe), if_neg (by omega : ¬ name.length > 50),
          List.take_of_length_le (show name.flatten.length ≤ 50 by omega),
          if_pos (show (true && decide (50 - name.length > 0)) = true by
            simp only [Bool.true_and, decide_eq_true_eq]; omega),
          List.append_assoc]
      · simp only [renderVisibleName, visibleNameSection, NAME_LEN]
        rw [if_pos hbe, if_neg (by omega : ¬ name.length > 50),
          if_neg (by omega : ¬ name.length > 50),
          List.take_of_length_le (show name.length ≤ 50 + 1 - 1 by omega),
          if_pos (show (true && decide (50 - name.length > 0)) = true by
            simp only [Bool.true_and, decide_eq_true_eq]; omega),
          List.append_assoc]

/-- C6 witness: a 55-byte ASCII name in byte mode truncates to its 47
leading bytes plus the ellipsis marker and cell close, with no slash. -/
theorem C6_truncation_witness :
    (∀ u ∈ longName55, u ≠ [])
    ∧ renderVisibleName false longName55 true =
        ((displayUnits false longName55).take 47).flatten
          ++ sz "..&gt;" ++ sz "</a></td><td>" :=
  ⟨by decide, (C6_truncation false longName55 true (by decide)).1 (by decide)⟩
